import Mathlib

/-!
Shallow embedding of the TeacherHub server core: the in-memory record store
(`MemStorage` in `src/server/storage.ts`), the zod validation schemas
(`src/shared/schema.ts`), the Express route handlers (`src/server/routes.ts`),
and the Gemini suggestion generator (`src/server/services/geminiService.ts`).

JavaScript `Map` collections are modelled as lists in insertion order with
`mapSet` / `mapGet` / `mapDelete` mirroring `Map.set` / `Map.get` /
`Map.delete` (set on an existing key replaces in place, otherwise appends;
delete returns whether the key was present).  JavaScript numbers appearing in
query strings are modelled by `JsNum` (an integer or NaN) so that the
truthiness checks in the routes can be stated faithfully.
-/

namespace TeacherHub

/-- A JavaScript number as produced by `Number(...)` on a query parameter:
either a definite integer value or NaN. -/
inductive JsNum where
  | num (n : Int)
  | nan
deriving DecidableEq, Repr

/-- JavaScript truthiness of a number: `0` and `NaN` are falsy. -/
def JsNum.truthy : JsNum → Bool
  | .num n => n != 0
  | .nan => false

/-- `users` table row (schema.ts). -/
structure User where
  id : Nat
  username : String
  password : String
deriving DecidableEq, Repr

/-- `content` table row (schema.ts): the stored Content record.
`tags` and `isPublic` are nullable/optional columns. -/
structure Content where
  id : Nat
  title : String
  type : String
  subject : String
  grade : String
  difficulty : String
  htmlContent : String
  tags : Option (List String)
  isPublic : Option Bool
  createdById : Int
deriving DecidableEq, Repr

/-- A successfully validated content-creation payload
(`InsertContent = z.infer<typeof insertContentSchema>`): all required
fields present, `type` and `difficulty` within their enumerations. -/
structure InsertContent where
  title : String
  type : String
  subject : String
  grade : String
  difficulty : String
  htmlContent : String
  tags : Option (List String)
  isPublic : Option Bool
  createdById : Int
deriving DecidableEq, Repr

/-- A raw JSON request body for the content endpoints: every field may be
absent.  Also serves as `Partial<InsertContent>` for PATCH bodies. -/
structure RawContentBody where
  title : Option String
  type : Option String
  subject : Option String
  grade : Option String
  difficulty : Option String
  htmlContent : Option String
  tags : Option (List String)
  isPublic : Option Bool
  createdById : Option Int
deriving DecidableEq, Repr

/-- `ContentType` enumeration membership (schema.ts `z.enum`). -/
def isContentType (t : String) : Bool :=
  t == "notes" || t == "quiz" || t == "assignment" || t == "paper"

/-- `DifficultyLevel` enumeration membership (schema.ts `z.enum`). -/
def isDifficultyLevel (d : String) : Bool :=
  d == "easy" || d == "medium" || d == "hard"

/-- `insertContentSchema.parse`: succeeds iff all required fields are present
and `type` / `difficulty` are within their enumerations. -/
def parseInsertContent (b : RawContentBody) : Option InsertContent :=
  match b.title, b.type, b.subject, b.grade, b.difficulty, b.htmlContent, b.createdById with
  | some title, some ty, some subject, some grade, some difficulty, some htmlContent,
    some createdById =>
      if isContentType ty && isDifficultyLevel difficulty then
        some { title := title, type := ty, subject := subject, grade := grade,
               difficulty := difficulty, htmlContent := htmlContent,
               tags := b.tags, isPublic := b.isPublic, createdById := createdById }
      else none
  | _, _, _, _, _, _, _ => none

/-- `insertContentSchema.partial().parse`: every field optional, but present
`type` / `difficulty` values must still be within their enumerations. -/
def parseContentPatch (b : RawContentBody) : Option RawContentBody :=
  if (match b.type with | some t => isContentType t | none => true) &&
     (match b.difficulty with | some d => isDifficultyLevel d | none => true) then
    some b
  else none

/-- `topic_suggestion` table row (schema.ts). -/
structure TopicSuggestion where
  id : Nat
  title : String
  description : String
  subject : String
  grade : String
  category : Option String
  difficultyLevels : Option (List String)
deriving DecidableEq, Repr

/-- A validated topic-suggestion creation payload (`InsertTopicSuggestion`). -/
structure InsertTopicSuggestion where
  title : String
  description : String
  subject : String
  grade : String
  category : Option String
  difficultyLevels : Option (List String)
deriving DecidableEq, Repr

/-! ### JavaScript `Map` operations on insertion-ordered lists -/

/-- `Map.set k v`: replace in place if `k` is present, else append. -/
def mapSet {α : Type} (key : α → Nat) (k : Nat) (v : α) : List α → List α
  | [] => [v]
  | x :: xs => if key x = k then v :: xs else x :: mapSet key k v xs

/-- `Map.get k`: first entry with the given key. -/
def mapGet {α : Type} (key : α → Nat) (k : Nat) (l : List α) : Option α :=
  l.find? (fun x => key x == k)

/-- `Map.delete k`: returns whether `k` was present, and the remaining
entries. -/
def mapDelete {α : Type} (key : α → Nat) (k : Nat) : List α → Bool × List α
  | [] => (false, [])
  | x :: xs =>
    if key x = k then (true, xs)
    else
      let r := mapDelete key k xs
      (r.1, x :: r.2)

/-! ### MemStorage (storage.ts) -/

/-- The in-memory store: three keyed collections plus id counters. -/
structure MemStorage where
  users : List User
  content : List Content
  topicSuggestions : List TopicSuggestion
  userIdCounter : Nat
  contentIdCounter : Nat
  topicSuggestionIdCounter : Nat
deriving DecidableEq, Repr

/-- `MemStorage.createUser`. -/
def createUser (s : MemStorage) (username password : String) : User × MemStorage :=
  let id := s.userIdCounter
  let u : User := { id := id, username := username, password := password }
  (u, { s with users := mapSet User.id id u s.users, userIdCounter := id + 1 })

/-- The store as built by the `MemStorage` constructor: empty collections,
counters at 1, then the dummy `teacher` user is created. -/
def initStorage : MemStorage :=
  (createUser
    { users := [], content := [], topicSuggestions := [],
      userIdCounter := 1, contentIdCounter := 1, topicSuggestionIdCounter := 1 }
    "teacher" "password").2

/-- `MemStorage.createContent`: allocate the next id, store the payload
extended with it, return the full record. -/
def createContent (s : MemStorage) (d : InsertContent) : Content × MemStorage :=
  let id := s.contentIdCounter
  let c : Content := { id := id, title := d.title, type := d.type, subject := d.subject,
                       grade := d.grade, difficulty := d.difficulty,
                       htmlContent := d.htmlContent, tags := d.tags,
                       isPublic := d.isPublic, createdById := d.createdById }
  (c, { s with content := mapSet Content.id id c s.content, contentIdCounter := id + 1 })

/-- `MemStorage.getContent`. -/
def getContent (s : MemStorage) (id : Nat) : Option Content :=
  mapGet Content.id id s.content

/-- `MemStorage.getAllContent`: snapshot in insertion order. -/
def getAllContent (s : MemStorage) : List Content :=
  s.content

/-- `MemStorage.getContentByUser`: records whose `createdById` equals the
given user id. -/
def getContentByUser (s : MemStorage) (userId : Int) : List Content :=
  s.content.filter (fun c => c.createdById == userId)

/-- The spread `{...existingContent, ...contentData}`: fields present in the
patch overwrite, absent fields keep the stored value; `id` is not a patch
field so it is kept. -/
def mergeContent (c : Content) (p : RawContentBody) : Content :=
  { id := c.id
    title := p.title.getD c.title
    type := p.type.getD c.type
    subject := p.subject.getD c.subject
    grade := p.grade.getD c.grade
    difficulty := p.difficulty.getD c.difficulty
    htmlContent := p.htmlContent.getD c.htmlContent
    tags := match p.tags with | some t => some t | none => c.tags
    isPublic := match p.isPublic with | some b => some b | none => c.isPublic
    createdById := p.createdById.getD c.createdById }

/-- `MemStorage.updateContent`: shallow-merge the patch into the existing
record, or return `none` leaving the store untouched. -/
def updateContent (s : MemStorage) (id : Nat) (p : RawContentBody) :
    Option Content × MemStorage :=
  match mapGet Content.id id s.content with
  | none => (none, s)
  | some c =>
    let updated := mergeContent c p
    (some updated, { s with content := mapSet Content.id id updated s.content })

/-- `MemStorage.deleteContent`: `Map.delete` semantics. -/
def deleteContent (s : MemStorage) (id : Nat) : Bool × MemStorage :=
  let r := mapDelete Content.id id s.content
  (r.1, { s with content := r.2 })

/-- `MemStorage.createTopicSuggestion`. -/
def createTopicSuggestion (s : MemStorage) (d : InsertTopicSuggestion) :
    TopicSuggestion × MemStorage :=
  let id := s.topicSuggestionIdCounter
  let t : TopicSuggestion := { id := id, title := d.title, description := d.description,
                               subject := d.subject, grade := d.grade,
                               category := d.category,
                               difficultyLevels := d.difficultyLevels }
  (t, { s with topicSuggestions := mapSet TopicSuggestion.id id t s.topicSuggestions,
               topicSuggestionIdCounter := id + 1 })

/-- `MemStorage.getTopicSuggestions`: linear scan with exact string match on
both fields, truncated to `limit`. -/
def getTopicSuggestions (s : MemStorage) (subject grade : String) (limit : Nat) :
    List TopicSuggestion :=
  (s.topicSuggestions.filter
    (fun t => t.subject == subject && t.grade == grade)).take limit

/-- `MemStorage.deleteTopicSuggestion`. -/
def deleteTopicSuggestion (s : MemStorage) (id : Nat) : Bool × MemStorage :=
  let r := mapDelete TopicSuggestion.id id s.topicSuggestions
  (r.1, { s with topicSuggestions := r.2 })

/-! ### Route handlers (routes.ts)

Each handler is a function from the current store and the decoded request to
an HTTP status code, an optional JSON body, and the store after the call. -/

/-- `POST /api/content`: validate, create, 201; on schema violation 400 with
the store untouched. -/
def postContentRoute (s : MemStorage) (b : RawContentBody) :
    (Nat × Option Content) × MemStorage :=
  match parseInsertContent b with
  | some d =>
    let r := createContent s d
    ((201, some r.1), r.2)
  | none => ((400, none), s)

/-- `GET /api/content`: the `userId` query parameter is converted with
`Number(...)` and then tested for truthiness, so `0` and `NaN` select the
full list. -/
def getContentRoute (s : MemStorage) (userId : Option JsNum) : List Content :=
  match userId with
  | some u =>
    match u, u.truthy with
    | .num n, true => getContentByUser s n
    | _, _ => getAllContent s
  | none => getAllContent s

/-- `GET /api/content/:id`. -/
def getContentByIdRoute (s : MemStorage) (id : Nat) : Nat × Option Content :=
  match getContent s id with
  | some c => (200, some c)
  | none => (404, none)

/-- `PATCH /api/content/:id`: validate the partial body, then update;
400 on schema violation, 404 when the id is absent. -/
def patchContentRoute (s : MemStorage) (id : Nat) (b : RawContentBody) :
    (Nat × Option Content) × MemStorage :=
  match parseContentPatch b with
  | none => ((400, none), s)
  | some p =>
    let r := updateContent s id p
    match r.1 with
    | none => ((404, none), r.2)
    | some c => ((200, some c), r.2)

/-- `DELETE /api/content/:id`: 204 when the store reports a deletion,
404 otherwise. -/
def deleteContentRoute (s : MemStorage) (id : Nat) : Nat × MemStorage :=
  let r := deleteContent s id
  (if r.1 then 204 else 404, r.2)

/-- `GET /api/suggestions`: 400 when `subject` or `grade` is missing/empty
(JS truthiness on strings), otherwise the compound filter with the `limit`
defaulting to 10. -/
def getSuggestionsRoute (s : MemStorage) (subject grade : String) (limit : Option Nat) :
    Nat × Option (List TopicSuggestion) :=
  if subject == "" || grade == "" then (400, none)
  else (200, some (getTopicSuggestions s subject grade (limit.getD 10)))

/-! ### Gemini suggestion generator (geminiService.ts) -/

/-- A suggestion-shaped object as decoded from the model's JSON answer.
`subject` and `grade` are the model's echo of the request values (possibly
absent or different); `category` and `difficultyLevels` may be absent. -/
structure RawSuggestion where
  title : String
  description : String
  subject : Option String
  grade : Option String
  category : Option String
  difficultyLevels : Option (List String)
deriving DecidableEq, Repr

/-- The backquote character, written by code point to keep the source
readable. -/
def backquote : Char := Char.ofNat 96

/-- One left-to-right pass of `text.replace(/` + ```json|`` + ``/g, '')`:
at each position the longer alternative `` ```json `` is tried before
`` ``` ``. -/
def stripFenceTokens : List Char → List Char
  | c :: c2 :: c3 :: c4 :: c5 :: c6 :: c7 :: rest =>
    if c = backquote ∧ c2 = backquote ∧ c3 = backquote ∧
       c4 = 'j' ∧ c5 = 's' ∧ c6 = 'o' ∧ c7 = 'n' then
      stripFenceTokens rest
    else if c = backquote ∧ c2 = backquote ∧ c3 = backquote then
      stripFenceTokens (c4 :: c5 :: c6 :: c7 :: rest)
    else c :: stripFenceTokens (c2 :: c3 :: c4 :: c5 :: c6 :: c7 :: rest)
  | c :: c2 :: c3 :: rest =>
    if c = backquote ∧ c2 = backquote ∧ c3 = backquote then stripFenceTokens rest
    else c :: stripFenceTokens (c2 :: c3 :: rest)
  | c :: cs => c :: stripFenceTokens cs
  | [] => []
termination_by l => l.length
decreasing_by all_goals simp_arith [List.length]

/-- The fence-stripping step: remove code-fence tokens, then trim. -/
def stripFences (text : String) : String :=
  (String.mk (stripFenceTokens text.data)).trim

/-- JavaScript `a || b` on an optional string: absent and the empty string
are falsy. -/
def jsOrString (o : Option String) (dflt : String) : String :=
  match o with
  | some v => if v = "" then dflt else v
  | none => dflt

/-- The shaping step applied to each parsed suggestion: `subject` and
`grade` are forced to the request values, `category` defaults to the
requested subject, `difficultyLevels` to `["medium"]`. -/
def formatSuggestion (subject grade : String) (sg : RawSuggestion) :
    InsertTopicSuggestion :=
  { title := sg.title
    description := sg.description
    subject := subject
    grade := grade
    category := some (jsOrString sg.category subject)
    difficultyLevels := some (sg.difficultyLevels.getD ["medium"]) }

/-- The parse-failure error: the raw model text is kept for diagnostics. -/
structure GenerationParseError where
  rawText : String
deriving DecidableEq, Repr

/-- `generateTopicSuggestions`: strip fences from the model's text, decode
it as a JSON array of suggestion-shaped objects (the decoder `jsonParse` is
a parameter standing for `JSON.parse`), truncate to `count`, and shape each
item; fail with a `GenerationParseError` when decoding fails. -/
def generateTopicSuggestions (subject grade : String) (count : Nat) (text : String)
    (jsonParse : String → Option (List RawSuggestion)) :
    Except GenerationParseError (List InsertTopicSuggestion) :=
  match jsonParse (stripFences text) with
  | none => Except.error { rawText := text }
  | some suggestions =>
    Except.ok ((suggestions.take count).map (formatSuggestion subject grade))

/-- Persist a list of generated suggestions in order through
`createTopicSuggestion`. -/
def persistSuggestions (s : MemStorage) :
    List InsertTopicSuggestion → List TopicSuggestion × MemStorage
  | [] => ([], s)
  | d :: ds =>
    let r := createTopicSuggestion s d
    let rest := persistSuggestions r.2 ds
    (r.1 :: rest.1, rest.2)

/-- `POST /api/ai/suggestions`: 400 when subject or grade is missing, 500
when generation fails (store untouched), otherwise persist every generated
suggestion and return the saved records. -/
def aiSuggestionsRoute (s : MemStorage) (subject grade : String) (count : Nat)
    (text : String) (jsonParse : String → Option (List RawSuggestion)) :
    (Nat × Option (List TopicSuggestion)) × MemStorage :=
  if subject == "" || grade == "" then ((400, none), s)
  else
    match generateTopicSuggestions subject grade count text jsonParse with
    | Except.error _ => ((500, none), s)
    | Except.ok suggestions =>
      let r := persistSuggestions s suggestions
      ((200, some r.1), r.2)

/-! ### Reachable store states -/

/-- States of the store reachable from the constructor state through the
storage operations invoked by the routes. -/
inductive Reachable : MemStorage → Prop where
  | init : Reachable initStorage
  | createC (s : MemStorage) (d : InsertContent) :
      Reachable s → Reachable (createContent s d).2
  | updateC (s : MemStorage) (id : Nat) (p : RawContentBody) :
      Reachable s → Reachable (updateContent s id p).2
  | deleteC (s : MemStorage) (id : Nat) :
      Reachable s → Reachable (deleteContent s id).2
  | createS (s : MemStorage) (d : InsertTopicSuggestion) :
      Reachable s → Reachable (createTopicSuggestion s d).2
  | deleteS (s : MemStorage) (id : Nat) :
      Reachable s → Reachable (deleteTopicSuggestion s id).2

/-- Invariant of the content collection: every stored id is below the
counter, and ids are pairwise distinct (a `Map` cannot hold a key twice). -/
def contentInv (s : MemStorage) : Prop :=
  (∀ c ∈ s.content, c.id < s.contentIdCounter) ∧
  (s.content.map Content.id).Nodup

/-! ### Lemmas about the `Map` operations -/

theorem mem_mapSet {α : Type} (key : α → Nat) (k : Nat) (v : α) (l : List α) (x : α)
    (hx : x ∈ mapSet key k v l) : x = v ∨ x ∈ l := by
  induction l with
  | nil => simpa [mapSet] using hx
  | cons y ys ih =>
    simp only [mapSet] at hx
    by_cases h : key y = k
    · rw [if_pos h] at hx
      rcases List.mem_cons.mp hx with h1 | h1
      · exact Or.inl h1
      · exact Or.inr (List.mem_cons_of_mem _ h1)
    · rw [if_neg h] at hx
      rcases List.mem_cons.mp hx with h1 | h1
      · exact Or.inr (h1 ▸ List.mem_cons_self _ _)
      · rcases ih h1 with h2 | h2
        · exact Or.inl h2
        · exact Or.inr (List.mem_cons_of_mem _ h2)

theorem mapSet_of_forall_ne {α : Type} (key : α → Nat) (k : Nat) (v : α) (l : List α)
    (h : ∀ x ∈ l, key x ≠ k) : mapSet key k v l = l ++ [v] := by
  induction l with
  | nil => rfl
  | cons y ys ih =>
    simp only [mapSet]
    rw [if_neg (h y (List.mem_cons_self _ _))]
    rw [ih (fun x hx => h x (List.mem_cons_of_mem _ hx))]
    rfl

theorem map_key_mapSet {α : Type} (key : α → Nat) (k : Nat) (v : α) (l : List α)
    (hv : key v = k) (hex : l.any (fun x => key x == k) = true) :
    (mapSet key k v l).map key = l.map key := by
  induction l with
  | nil => simp at hex
  | cons y ys ih =>
    simp only [mapSet]
    by_cases h : key y = k
    · rw [if_pos h]; simp [hv, h]
    · rw [if_neg h]
      simp only [List.any_cons, Bool.or_eq_true, beq_iff_eq] at hex
      rcases hex with h1 | h1
      · exact absurd h1 h
      · simp [ih h1]

theorem mapGet_eq_none_iff {α : Type} (key : α → Nat) (k : Nat) (l : List α) :
    mapGet key k l = none ↔ ∀ x ∈ l, key x ≠ k := by
  simp [mapGet, List.find?_eq_none]

theorem mapGet_eq_some_mem {α : Type} (key : α → Nat) (k : Nat) (l : List α) (c : α)
    (h : mapGet key k l = some c) : c ∈ l ∧ key c = k := by
  refine ⟨List.mem_of_find?_eq_some h, ?_⟩
  have := List.find?_some h
  simpa using this

theorem mapGet_append_fresh {α : Type} (key : α → Nat) (k : Nat) (v : α) (l : List α)
    (h : ∀ x ∈ l, key x ≠ k) (hv : key v = k) :
    mapGet key k (l ++ [v]) = some v := by
  induction l with
  | nil => simp [mapGet, List.find?, hv]
  | cons y ys ih =>
    have hy : (key y == k) = false := by
      simpa using h y (List.mem_cons_self _ _)
    simp only [mapGet, List.cons_append, List.find?, hy]
    exact ih (fun x hx => h x (List.mem_cons_of_mem _ hx))

theorem mapDelete_fst {α : Type} (key : α → Nat) (k : Nat) (l : List α) :
    (mapDelete key k l).1 = l.any (fun x => key x == k) := by
  induction l with
  | nil => rfl
  | cons y ys ih =>
    simp only [mapDelete, List.any_cons]
    by_cases h : key y = k
    · rw [if_pos h]; simp [h]
    · rw [if_neg h]
      have : (key y == k) = false := by simpa using h
      simp [this, ih]

theorem map_key_mapDelete {α : Type} (key : α → Nat) (k : Nat) (l : List α) :
    ((mapDelete key k l).2).map key = (l.map key).erase k := by
  induction l with
  | nil => rfl
  | cons y ys ih =>
    simp only [mapDelete]
    by_cases h : key y = k
    · rw [if_pos h]
      simp [List.erase_cons, h]
    · rw [if_neg h]
      have : (key y == k) = false := by simpa using h
      simp [List.erase_cons, this, ih, h]

theorem mem_mapDelete_snd {α : Type} (key : α → Nat) (k : Nat) (l : List α) (x : α)
    (hx : x ∈ (mapDelete key k l).2) : x ∈ l := by
  induction l with
  | nil => simp [mapDelete] at hx
  | cons y ys ih =>
    simp only [mapDelete] at hx
    by_cases h : key y = k
    · rw [if_pos h] at hx
      exact List.mem_cons_of_mem _ hx
    · rw [if_neg h] at hx
      rcases List.mem_cons.mp hx with h1 | h1
      · exact h1 ▸ List.mem_cons_self _ _
      · exact List.mem_cons_of_mem _ (ih h1)

/-! ### The content invariant holds in every reachable state -/

theorem contentInv_init : contentInv initStorage := by
  constructor
  · intro c hc
    simp [initStorage, createUser] at hc
  · simp [initStorage, createUser]

theorem createContent_content_eq (s : MemStorage) (d : InsertContent)
    (h : contentInv s) :
    (createContent s d).2.content = s.content ++ [(createContent s d).1] := by
  apply mapSet_of_forall_ne
  intro x hx
  exact Nat.ne_of_lt (h.1 x hx)

theorem contentInv_createContent (s : MemStorage) (d : InsertContent)
    (h : contentInv s) : contentInv (createContent s d).2 := by
  have hct : (createContent s d).2.content = s.content ++ [(createContent s d).1] :=
    createContent_content_eq s d h
  constructor
  · intro c hc
    rw [hct] at hc
    have hcounter : (createContent s d).2.contentIdCounter = s.contentIdCounter + 1 := rfl
    rw [hcounter]
    rcases List.mem_append.mp hc with h1 | h1
    · exact Nat.lt_succ_of_lt (h.1 c h1)
    · have : c = (createContent s d).1 := by simpa using h1
      rw [this]
      exact Nat.lt_succ_self _
  · rw [hct]
    rw [List.map_append]
    rw [List.nodup_append]
    refine ⟨h.2, List.nodup_singleton _, ?_⟩
    intro a ha hb
    have hid : (createContent s d).1.id = s.contentIdCounter := rfl
    simp only [List.map_cons, List.map_nil, List.mem_singleton] at hb
    rw [hb, hid] at ha
    rcases List.mem_map.mp ha with ⟨c, hc, hc2⟩
    exact absurd (hc2 ▸ h.1 c hc) (Nat.lt_irrefl _)

theorem contentInv_updateContent (s : MemStorage) (id : Nat) (p : RawContentBody)
    (h : contentInv s) : contentInv (updateContent s id p).2 := by
  unfold updateContent
  cases hg : mapGet Content.id id s.content with
  | none => simpa using h
  | some c =>
    obtain ⟨hmem, hkey⟩ := mapGet_eq_some_mem Content.id id s.content c hg
    have hmap : (mapSet Content.id id (mergeContent c p) s.content).map Content.id =
        s.content.map Content.id := by
      apply map_key_mapSet
      · exact hkey
      · rw [List.any_eq_true]
        exact ⟨c, hmem, by simpa using hkey⟩
    constructor
    · intro x hx
      rcases mem_mapSet Content.id id (mergeContent c p) s.content x hx with h1 | h1
      · have : (mergeContent c p).id = c.id := rfl
        rw [h1, this]
        exact h.1 c hmem
      · exact h.1 x h1
    · simpa [hmap] using h.2

theorem contentInv_deleteContent (s : MemStorage) (id : Nat)
    (h : contentInv s) : contentInv (deleteContent s id).2 := by
  constructor
  · intro x hx
    exact h.1 x (mem_mapDelete_snd Content.id id s.content x hx)
  · have : ((deleteContent s id).2.content).map Content.id =
        (s.content.map Content.id).erase id := map_key_mapDelete Content.id id s.content
    rw [this]
    exact h.2.erase id

theorem reachable_contentInv (s : MemStorage) (hs : Reachable s) : contentInv s := by
  induction hs with
  | init => exact contentInv_init
  | createC s d _ ih => exact contentInv_createContent s d ih
  | updateC s id p _ ih => exact contentInv_updateContent s id p ih
  | deleteC s id _ ih => exact contentInv_deleteContent s id ih
  | createS s d _ ih => exact ih
  | deleteS s id _ ih => exact ih

/-! ### The suggestion-collection invariant -/

/-- Invariant of the topic-suggestion collection: every stored id is below
the counter, and ids are pairwise distinct. -/
def suggestionInv (s : MemStorage) : Prop :=
  (∀ t ∈ s.topicSuggestions, t.id < s.topicSuggestionIdCounter) ∧
  (s.topicSuggestions.map TopicSuggestion.id).Nodup

theorem suggestionInv_init : suggestionInv initStorage := by
  constructor
  · intro t ht
    simp [initStorage, createUser] at ht
  · simp [initStorage, createUser]

theorem createTopicSuggestion_suggestions_eq (s : MemStorage) (d : InsertTopicSuggestion)
    (h : suggestionInv s) :
    (createTopicSuggestion s d).2.topicSuggestions =
      s.topicSuggestions ++ [(createTopicSuggestion s d).1] := by
  apply mapSet_of_forall_ne
  intro x hx
  exact Nat.ne_of_lt (h.1 x hx)

theorem suggestionInv_createTopicSuggestion (s : MemStorage) (d : InsertTopicSuggestion)
    (h : suggestionInv s) : suggestionInv (createTopicSuggestion s d).2 := by
  have hct := createTopicSuggestion_suggestions_eq s d h
  constructor
  · intro t ht
    rw [hct] at ht
    have hcounter : (createTopicSuggestion s d).2.topicSuggestionIdCounter =
        s.topicSuggestionIdCounter + 1 := rfl
    rw [hcounter]
    rcases List.mem_append.mp ht with h1 | h1
    · exact Nat.lt_succ_of_lt (h.1 t h1)
    · have : t = (createTopicSuggestion s d).1 := by simpa using h1
      rw [this]
      exact Nat.lt_succ_self _
  · rw [hct, List.map_append, List.nodup_append]
    refine ⟨h.2, List.nodup_singleton _, ?_⟩
    intro a ha hb
    have hid : (createTopicSuggestion s d).1.id = s.topicSuggestionIdCounter := rfl
    simp only [List.map_cons, List.map_nil, List.mem_singleton] at hb
    rw [hb, hid] at ha
    rcases List.mem_map.mp ha with ⟨t, ht, ht2⟩
    exact absurd (ht2 ▸ h.1 t ht) (Nat.lt_irrefl _)

theorem suggestionInv_deleteTopicSuggestion (s : MemStorage) (id : Nat)
    (h : suggestionInv s) : suggestionInv (deleteTopicSuggestion s id).2 := by
  constructor
  · intro x hx
    exact h.1 x (mem_mapDelete_snd TopicSuggestion.id id s.topicSuggestions x hx)
  · have : ((deleteTopicSuggestion s id).2.topicSuggestions).map TopicSuggestion.id =
        (s.topicSuggestions.map TopicSuggestion.id).erase id :=
      map_key_mapDelete TopicSuggestion.id id s.topicSuggestions
    rw [this]
    exact h.2.erase id

theorem reachable_suggestionInv (s : MemStorage) (hs : Reachable s) : suggestionInv s := by
  induction hs with
  | init => exact suggestionInv_init
  | createC s d _ ih => exact ih
  | updateC s id p _ ih =>
    unfold updateContent
    cases hg : mapGet Content.id id s.content with
    | none => simpa using ih
    | some c => exact ih
  | deleteC s id _ ih => exact ih
  | createS s d _ ih => exact suggestionInv_createTopicSuggestion s d ih
  | deleteS s id _ ih => exact suggestionInv_deleteTopicSuggestion s id ih

/-! ### Persistence of generated suggestions -/

/-- The data fields of a stored suggestion, i.e. the record minus its id. -/
def suggestionData (t : TopicSuggestion) : InsertTopicSuggestion :=
  { title := t.title, description := t.description, subject := t.subject,
    grade := t.grade, category := t.category, difficultyLevels := t.difficultyLevels }

theorem persistSuggestions_map_data (l : List InsertTopicSuggestion) (s : MemStorage) :
    ((persistSuggestions s l).1).map suggestionData = l := by
  induction l generalizing s with
  | nil => rfl
  | cons d ds ih =>
    simp only [persistSuggestions, List.map_cons]
    rw [ih]
    rfl

theorem persistSuggestions_growth (l : List InsertTopicSuggestion) (s : MemStorage)
    (h : suggestionInv s) :
    (persistSuggestions s l).2.topicSuggestions.length =
      s.topicSuggestions.length + l.length ∧
    suggestionInv (persistSuggestions s l).2 := by
  induction l generalizing s with
  | nil => exact ⟨rfl, h⟩
  | cons d ds ih =>
    have happ := createTopicSuggestion_suggestions_eq s d h
    have hinv := suggestionInv_createTopicSuggestion s d h
    have hrec := ih (createTopicSuggestion s d).2 hinv
    constructor
    · show (persistSuggestions (createTopicSuggestion s d).2 ds).2.topicSuggestions.length = _
      rw [hrec.1, happ]
      simp [Nat.add_comm, Nat.add_assoc, Nat.add_left_comm]
    · exact hrec.2

/-! ### Demonstration fixtures used by the witnesses -/

/-- A valid content-creation payload. -/
def demoInsert : InsertContent :=
  { title := "Algebra Notes", type := "notes", subject := "Mathematics",
    grade := "9th Grade", difficulty := "easy", htmlContent := "<p>x</p>",
    tags := none, isPublic := none, createdById := 1 }

/-- The store after one successful content creation from the initial state. -/
def demoStore : MemStorage := (createContent initStorage demoInsert).2

/-- The record created by that first creation (id 1). -/
def demoRecord : Content := (createContent initStorage demoInsert).1

/-- The empty PATCH body. -/
def emptyPatch : RawContentBody :=
  { title := none, type := none, subject := none, grade := none, difficulty := none,
    htmlContent := none, tags := none, isPublic := none, createdById := none }

/-- A PATCH body that only changes the title. -/
def demoPatch : RawContentBody := { emptyPatch with title := some "Updated" }

/-- A creation body with no title. -/
def missingTitleBody : RawContentBody :=
  { title := none, type := some "notes", subject := some "Mathematics",
    grade := some "9th Grade", difficulty := some "easy", htmlContent := some "<p>x</p>",
    tags := none, isPublic := none, createdById := some 1 }

/-! ### Claim C1 -/

theorem parseInsertContent_eq_none (b : RawContentBody)
    (h : b.title = none ∨ b.subject = none ∨ b.grade = none ∨ b.difficulty = none ∨
         b.htmlContent = none ∨ b.type = none ∨
         (∃ t, b.type = some t ∧ isContentType t = false) ∨
         (∃ d, b.difficulty = some d ∧ isDifficultyLevel d = false)) :
    parseInsertContent b = none := by
  unfold parseInsertContent
  split
  · rename_i title ty subject grade difficulty html cid h1 h2 h3 h4 h5 h6 h7
    rcases h with h | h | h | h | h | h | ⟨t, ht, hft⟩ | ⟨d, hd, hfd⟩ <;> simp_all
  · rfl

/-- C1: a content-creation request missing any of the required fields
`title`, `subject`, `grade`, `difficulty`, `htmlContent` or `type`, or whose
`type` is outside {notes, quiz, assignment, paper}, or whose `difficulty` is
outside {easy, medium, hard}, gets a 400 response and leaves the store
unchanged (no record created, id counter not advanced). -/
theorem postContent_invalid_is_400_and_unchanged (s : MemStorage) (b : RawContentBody)
    (h : b.title = none ∨ b.subject = none ∨ b.grade = none ∨ b.difficulty = none ∨
         b.htmlContent = none ∨ b.type = none ∨
         (∃ t, b.type = some t ∧ isContentType t = false) ∨
         (∃ d, b.difficulty = some d ∧ isDifficultyLevel d = false)) :
    postContentRoute s b = ((400, none), s) := by
  unfold postContentRoute
  rw [parseInsertContent_eq_none b h]

/-- C1 witness: a body with no title is rejected with 400 and the store is
returned unchanged. -/
theorem postContent_invalid_is_400_and_unchanged_witness :
    postContentRoute initStorage missingTitleBody = ((400, none), initStorage) :=
  postContent_invalid_is_400_and_unchanged initStorage missingTitleBody (Or.inl rfl)

/-! ### Claim C2 -/

/-- C2: in every reachable store state, a successful creation returns a
record whose id is the current counter value, strictly greater than the id
of every previously created content record, and advances the counter. -/
theorem createContent_id_monotonic (s : MemStorage) (d : InsertContent)
    (hs : Reachable s) :
    (createContent s d).1.id = s.contentIdCounter ∧
    (createContent s d).2.contentIdCounter = s.contentIdCounter + 1 ∧
    ∀ c ∈ s.content, c.id < (createContent s d).1.id := by
  refine ⟨rfl, rfl, ?_⟩
  intro c hc
  exact (reachable_contentInv s hs).1 c hc

/-- C2 witness: creating in the one-record store yields id 2, strictly above
the stored record's id 1. -/
theorem createContent_id_monotonic_witness :
    demoRecord.id < (createContent demoStore demoInsert).1.id :=
  (createContent_id_monotonic demoStore demoInsert
    (Reachable.createC initStorage demoInsert Reachable.init)).2.2 demoRecord (by decide)

/-! ### Claim C3 -/

/-- C3: in every reachable store state, creating a record and then fetching
it by the returned id yields exactly the created record, which is the
payload extended with the assigned id. -/
theorem createContent_roundtrip (s : MemStorage) (d : InsertContent) (hs : Reachable s) :
    getContent (createContent s d).2 (createContent s d).1.id =
      some (createContent s d).1 ∧
    (createContent s d).1 =
      { id := s.contentIdCounter, title := d.title, type := d.type, subject := d.subject,
        grade := d.grade, difficulty := d.difficulty, htmlContent := d.htmlContent,
        tags := d.tags, isPublic := d.isPublic, createdById := d.createdById } := by
  have h := reachable_contentInv s hs
  refine ⟨?_, rfl⟩
  unfold getContent
  rw [createContent_content_eq s d h]
  apply mapGet_append_fresh
  · intro x hx
    exact Nat.ne_of_lt (h.1 x hx)
  · rfl

/-- C3 witness: round-trip through the initial store. -/
theorem createContent_roundtrip_witness :
    getContent (createContent initStorage demoInsert).2
        (createContent initStorage demoInsert).1.id =
      some (createContent initStorage demoInsert).1 :=
  (createContent_roundtrip initStorage demoInsert Reachable.init).1

/-! ### Claim C4 -/

theorem deleteContentRoute_fst_eq (s : MemStorage) (id : Nat) :
    (deleteContentRoute s id).1 =
      if s.content.any (fun c => c.id == id) then 204 else 404 := by
  simp only [deleteContentRoute, deleteContent, mapDelete_fst]

theorem deleteContent_removes_key (s : MemStorage) (id : Nat) (h : contentInv s) :
    (deleteContent s id).2.content.any (fun c => c.id == id) = false := by
  rw [Bool.eq_false_iff]
  intro hany
  rw [List.any_eq_true] at hany
  obtain ⟨x, hx, hbeq⟩ := hany
  have hxid : x.id = id := by simpa using hbeq
  have hmem : x.id ∈ ((deleteContent s id).2.content).map Content.id :=
    List.mem_map_of_mem _ hx
  have herase : ((deleteContent s id).2.content).map Content.id =
      (s.content.map Content.id).erase id := map_key_mapDelete Content.id id s.content
  rw [herase, hxid] at hmem
  exact ((List.Nodup.mem_erase_iff h.2).mp hmem).1 rfl

/-- C4: in every reachable store state, deleting a present content id
returns 204 and a second delete of the same id returns 404; deleting an id
that is not in the store always returns 404 (the store reports failure
rather than throwing). -/
theorem deleteContent_twice (s : MemStorage) (id : Nat) (hs : Reachable s)
    (h : (getContent s id).isSome = true) :
    (deleteContentRoute s id).1 = 204 ∧
    (deleteContentRoute (deleteContentRoute s id).2 id).1 = 404 ∧
    ∀ s2 id2, getContent s2 id2 = none → (deleteContentRoute s2 id2).1 = 404 := by
  have hinv := reachable_contentInv s hs
  have hany : s.content.any (fun c => c.id == id) = true := by
    rw [List.any_eq_true]
    rw [Option.isSome_iff_exists] at h
    obtain ⟨c, hc⟩ := h
    obtain ⟨hmem, hkey⟩ := mapGet_eq_some_mem Content.id id s.content c hc
    exact ⟨c, hmem, by simpa using hkey⟩
  refine ⟨?_, ?_, ?_⟩
  · rw [deleteContentRoute_fst_eq, if_pos hany]
  · have hsnd : (deleteContentRoute s id).2 = (deleteContent s id).2 := rfl
    rw [hsnd, deleteContentRoute_fst_eq, deleteContent_removes_key s id hinv]
    rfl
  · intro s2 id2 h2
    have h2' := (mapGet_eq_none_iff Content.id id2 s2.content).mp h2
    have : s2.content.any (fun c => c.id == id2) = false := by
      rw [Bool.eq_false_iff]
      intro hany2
      rw [List.any_eq_true] at hany2
      obtain ⟨x, hx, hbeq⟩ := hany2
      exact h2' x hx (by simpa using hbeq)
    rw [deleteContentRoute_fst_eq, this]
    rfl

/-- C4 witness: id 1 is present in the one-record store; the first DELETE
gives 204, the second 404. -/
theorem deleteContent_twice_witness :
    (deleteContentRoute demoStore 1).1 = 204 ∧
    (deleteContentRoute (deleteContentRoute demoStore 1).2 1).1 = 404 := by
  have h := deleteContent_twice demoStore 1
    (Reachable.createC initStorage demoInsert Reachable.init) (by decide)
  exact ⟨h.1, h.2.1⟩

/-! ### Claim C5 -/

/-- C5: PATCH on an id that is not in the store, with any body passing the
partial schema, returns 404 and hands back the store exactly as it was. -/
theorem patchContent_notfound (s : MemStorage) (id : Nat) (b p : RawContentBody)
    (hmiss : getContent s id = none) (hp : parseContentPatch b = some p) :
    patchContentRoute s id b = ((404, none), s) := by
  have h1 : updateContent s id p = (none, s) := by
    unfold updateContent
    rw [show mapGet Content.id id s.content = none from hmiss]
  simp only [patchContentRoute, hp, h1]

/-- C5 witness: PATCH of absent id 2 with the empty patch body returns 404
and the unchanged store. -/
theorem patchContent_notfound_witness :
    patchContentRoute demoStore 2 emptyPatch = ((404, none), demoStore) :=
  patchContent_notfound demoStore 2 emptyPatch emptyPatch (by decide) (by decide)

/-! ### Claim C6 -/

/-- C6: updating an existing record returns the shallow merge: every field
present in the patch takes the patch's value, every absent field keeps the
stored value, and the id is unchanged. -/
theorem updateContent_merge (s : MemStorage) (id : Nat) (p : RawContentBody) (c : Content)
    (h : getContent s id = some c) :
    ∃ u, (updateContent s id p).1 = some u ∧
      u.id = c.id ∧
      u.title = p.title.getD c.title ∧
      u.type = p.type.getD c.type ∧
      u.subject = p.subject.getD c.subject ∧
      u.grade = p.grade.getD c.grade ∧
      u.difficulty = p.difficulty.getD c.difficulty ∧
      u.htmlContent = p.htmlContent.getD c.htmlContent ∧
      u.tags = (match p.tags with | some t => some t | none => c.tags) ∧
      u.isPublic = (match p.isPublic with | some v => some v | none => c.isPublic) ∧
      u.createdById = p.createdById.getD c.createdById := by
  refine ⟨mergeContent c p, ?_, rfl, rfl, rfl, rfl, rfl, rfl, rfl, rfl, rfl, rfl⟩
  unfold updateContent
  rw [show mapGet Content.id id s.content = some c from h]

/-- C6 witness: patching only the title of the stored record changes the
title and keeps the id. -/
theorem updateContent_merge_witness :
    (updateContent demoStore 1 demoPatch).1.map Content.title = some "Updated" ∧
    (updateContent demoStore 1 demoPatch).1.map Content.id = some 1 := by
  obtain ⟨u, hu, hid, htitle, _⟩ :=
    updateContent_merge demoStore 1 demoPatch demoRecord (by decide)
  refine ⟨?_, ?_⟩
  · rw [hu]
    simp only [Option.map_some']
    rw [htitle]
    rfl
  · rw [hu]
    simp only [Option.map_some']
    rw [hid]
    rfl

/-! ### Claim C7 -/

/-- A topic suggestion matching the demo subject and grade. -/
def demoSugg : InsertTopicSuggestion :=
  { title := "Linear Equations", description := "Solving linear equations",
    subject := "Mathematics", grade := "9th Grade",
    category := some "Algebra", difficultyLevels := some ["easy"] }

/-- A store holding one matching topic suggestion. -/
def demoSuggStore : MemStorage := (createTopicSuggestion initStorage demoSugg).2

/-- C7: the compound filter returns at most `n` records, every returned
record matches the subject and grade exactly, and the route without a
`limit` parameter returns at most 10 records. -/
theorem getTopicSuggestions_spec (s : MemStorage) (subject grade : String) (n : Nat) :
    (getTopicSuggestions s subject grade n).length ≤ n ∧
    (∀ t ∈ getTopicSuggestions s subject grade n, t.subject = subject ∧ t.grade = grade) ∧
    (∀ l, (getSuggestionsRoute s subject grade none).2 = some l → l.length ≤ 10) := by
  refine ⟨?_, ?_, ?_⟩
  · exact List.length_take_le n _
  · intro t ht
    have hmem := List.mem_of_mem_take ht
    have hf := (List.mem_filter.mp hmem).2
    simp only [Bool.and_eq_true, beq_iff_eq] at hf
    exact hf
  · intro l hl
    unfold getSuggestionsRoute at hl
    by_cases hc : (subject == "" || grade == "") = true
    · rw [if_pos hc] at hl
      cases hl
    · rw [if_neg hc] at hl
      have : getTopicSuggestions s subject grade 10 = l := by
        simpa using hl
      rw [← this]
      exact List.length_take_le 10 _

/-- C7 witness: with one matching record stored, the filter with limit 5
returns at most 5 records, the stored record matches the filter fields, and
the default-limit route returns at most 10. -/
theorem getTopicSuggestions_spec_witness :
    (getTopicSuggestions demoSuggStore "Mathematics" "9th Grade" 5).length ≤ 5 ∧
    ((createTopicSuggestion initStorage demoSugg).1.subject = "Mathematics" ∧
     (createTopicSuggestion initStorage demoSugg).1.grade = "9th Grade") ∧
    (getTopicSuggestions demoSuggStore "Mathematics" "9th Grade" 10).length ≤ 10 := by
  have h := getTopicSuggestions_spec demoSuggStore "Mathematics" "9th Grade" 5
  exact ⟨h.1, h.2.1 _ (by decide), h.2.2 _ (by decide)⟩

/-! ### Claim C8 -/

/-- C8 counterexample: the model's answer parses as the empty JSON array, so
a request with count=3 persists 0 records, not 3 — the claim's universal
quantification over all parseable responses fails. -/
theorem aiSuggestions_exact_count_counterexample :
    ¬ ((aiSuggestionsRoute initStorage "Mathematics" "9th Grade" 3 "[]"
          (fun _ => some [])).2.topicSuggestions.length
        = initStorage.topicSuggestions.length + 3) := by
  decide

/-- C8 amended: in every reachable state, with subject and grade nonempty
and a model response parsing to `parsed`, a count=3 request succeeds with
200 and persists exactly `min 3 (length parsed)` records (so exactly 3
whenever the model returned at least 3 items); every saved record carries
the requested subject and grade regardless of the model's echo, `category`
defaults to the requested subject when omitted, `difficultyLevels` defaults
to `["medium"]` when absent, and the parsed array is truncated to the
requested count. -/
theorem aiSuggestions_persist (s : MemStorage) (subject grade text : String)
    (jsonParse : String → Option (List RawSuggestion)) (parsed : List RawSuggestion)
    (hs : Reachable s)
    (hsub : (subject == "") = false) (hgr : (grade == "") = false)
    (hparse : jsonParse (stripFences text) = some parsed) :
    (aiSuggestionsRoute s subject grade 3 text jsonParse).1.1 = 200 ∧
    (aiSuggestionsRoute s subject grade 3 text jsonParse).2.topicSuggestions.length =
      s.topicSuggestions.length + min 3 parsed.length ∧
    ∃ saved, (aiSuggestionsRoute s subject grade 3 text jsonParse).1.2 = some saved ∧
      saved.length = min 3 parsed.length ∧
      (∀ t ∈ saved, t.subject = subject ∧ t.grade = grade) ∧
      (∀ i raw t, parsed.get? i = some raw → saved.get? i = some t →
        t.title = raw.title ∧ t.description = raw.description ∧
        (raw.category = none → t.category = some subject) ∧
        (raw.difficultyLevels = none → t.difficultyLevels = some ["medium"])) := by
  have hgen : generateTopicSuggestions subject grade 3 text jsonParse =
      Except.ok ((parsed.take 3).map (formatSuggestion subject grade)) := by
    unfold generateTopicSuggestions
    rw [hparse]
  have hroute : aiSuggestionsRoute s subject grade 3 text jsonParse =
      ((200, some (persistSuggestions s
          ((parsed.take 3).map (formatSuggestion subject grade))).1),
        (persistSuggestions s
          ((parsed.take 3).map (formatSuggestion subject grade))).2) := by
    unfold aiSuggestionsRoute
    simp only [hsub, hgr, hgen, Bool.or_self]
    rw [if_neg Bool.false_ne_true]
  have hlen : ((parsed.take 3).map (formatSuggestion subject grade)).length =
      min 3 parsed.length := by
    rw [List.length_map, List.length_take]
  have hdata := persistSuggestions_map_data
    ((parsed.take 3).map (formatSuggestion subject grade)) s
  have hgrowth := persistSuggestions_growth
    ((parsed.take 3).map (formatSuggestion subject grade)) s
    (reachable_suggestionInv s hs)
  refine ⟨by rw [hroute], ?_, ?_⟩
  · rw [hroute]
    rw [hgrowth.1, hlen]
  · refine ⟨(persistSuggestions s
        ((parsed.take 3).map (formatSuggestion subject grade))).1, by rw [hroute], ?_, ?_, ?_⟩
    · have := congrArg List.length hdata
      rw [List.length_map] at this
      rw [this, hlen]
    · intro t ht
      have hmem : suggestionData t ∈ (parsed.take 3).map (formatSuggestion subject grade) := by
        rw [← hdata]
        exact List.mem_map_of_mem _ ht
      rcases List.mem_map.mp hmem with ⟨raw, _, hraw⟩
      have h1 : (suggestionData t).subject = subject := by
        rw [← hraw]
        rfl
      have h2 : (suggestionData t).grade = grade := by
        rw [← hraw]
        rfl
      exact ⟨h1, h2⟩
    · intro i raw t hpi hsi
      have hlt : i < (persistSuggestions s
          ((parsed.take 3).map (formatSuggestion subject grade))).1.length :=
        (List.get?_eq_some.mp hsi).1
      have hlt3 : i < 3 := by
        have := congrArg List.length hdata
        rw [List.length_map, hlen] at this
        calc i < min 3 parsed.length := this ▸ hlt
          _ ≤ 3 := Nat.min_le_left _ _
      have hfm : ((parsed.take 3).map (formatSuggestion subject grade)).get? i =
          some (formatSuggestion subject grade raw) := by
        rw [List.get?_map, List.get?_take hlt3, hpi]
        rfl
      have hfm2 : ((parsed.take 3).map (formatSuggestion subject grade)).get? i =
          some (suggestionData t) := by
        rw [← hdata, List.get?_map, hsi]
        rfl
      have heq : suggestionData t = formatSuggestion subject grade raw := by
        have := hfm2.symm.trans hfm
        exact Option.some.inj this
      refine ⟨?_, ?_, ?_, ?_⟩
      · exact congrArg InsertTopicSuggestion.title heq
      · exact congrArg InsertTopicSuggestion.description heq
      · intro hcat
        have h3 := congrArg InsertTopicSuggestion.category heq
        simp only [suggestionData, formatSuggestion] at h3
        rw [h3]
        simp [jsOrString, hcat]
      · intro hdl
        have h4 := congrArg InsertTopicSuggestion.difficultyLevels heq
        simp only [suggestionData, formatSuggestion] at h4
        rw [h4]
        simp [hdl]

/-- Parsed suggestions used by the C8 witness: four items, echoing wrong
subject and grade, one with `category` and `difficultyLevels` absent. -/
def demoParsed : List RawSuggestion :=
  [{ title := "A", description := "a", subject := some "Wrong", grade := some "Wrong",
     category := none, difficultyLevels := none },
   { title := "B", description := "b", subject := none, grade := none,
     category := some "Algebra", difficultyLevels := some ["hard"] },
   { title := "C", description := "c", subject := some "Other", grade := some "1st",
     category := none, difficultyLevels := some ["easy"] },
   { title := "D", description := "d", subject := none, grade := none,
     category := some "X", difficultyLevels := none }]

/-- C8 witness: four parsed items with count=3 persist exactly 3 records in
the empty initial store, and the first saved record carries the requested
subject and the defaults. -/
theorem aiSuggestions_persist_witness :
    (aiSuggestionsRoute initStorage "Mathematics" "9th Grade" 3 "ignored"
        (fun _ => some demoParsed)).2.topicSuggestions.length =
      initStorage.topicSuggestions.length + 3 := by
  have h := aiSuggestions_persist initStorage "Mathematics" "9th Grade" "ignored"
    (fun _ => some demoParsed) demoParsed Reachable.init rfl rfl rfl
  have h2 := h.2.1
  simpa [demoParsed] using h2

/-! ### Claim C9 -/

/-- C9: when the fence-stripped model text does not parse as JSON, the
generator fails with a `GenerationParseError` carrying the raw text, the
route answers 500 with no body, and the store is returned unchanged (zero
new TopicSuggestion records). -/
theorem aiSuggestions_parse_failure (s : MemStorage) (subject grade : String)
    (count : Nat) (text : String)
    (jsonParse : String → Option (List RawSuggestion))
    (hsub : (subject == "") = false) (hgr : (grade == "") = false)
    (hparse : jsonParse (stripFences text) = none) :
    generateTopicSuggestions subject grade count text jsonParse =
      Except.error { rawText := text } ∧
    aiSuggestionsRoute s subject grade count text jsonParse = ((500, none), s) := by
  have hgen : generateTopicSuggestions subject grade count text jsonParse =
      Except.error { rawText := text } := by
    unfold generateTopicSuggestions
    rw [hparse]
  refine ⟨hgen, ?_⟩
  unfold aiSuggestionsRoute
  simp only [hsub, hgr, hgen, Bool.or_self]
  rw [if_neg Bool.false_ne_true]

/-- C9 witness: an unparseable simulated response yields 500 and hands back
the initial store unchanged. -/
theorem aiSuggestions_parse_failure_witness :
    aiSuggestionsRoute initStorage "Science" "8th Grade" 3 "oops"
      (fun _ => none) = ((500, none), initStorage) :=
  (aiSuggestions_parse_failure initStorage "Science" "8th Grade" 3 "oops"
    (fun _ => none) rfl rfl rfl).2

/-! ### Claim C10 -/

/-- C10: the `userId` query parameter is tested for JS truthiness, so the
values 0 and NaN (and an absent parameter) select the full content list —
records owned by user 0 cannot be selected — while every nonzero numeric
`userId` selects exactly the records whose `createdById` equals it. -/
theorem getContent_userId_truthiness (s : MemStorage) (n : Int) (hn : n ≠ 0) :
    getContentRoute s (some (JsNum.num 0)) = getAllContent s ∧
    getContentRoute s (some JsNum.nan) = getAllContent s ∧
    getContentRoute s none = getAllContent s ∧
    getContentRoute s (some (JsNum.num n)) = getContentByUser s n ∧
    ∀ c, c ∈ getContentByUser s n ↔ c ∈ s.content ∧ c.createdById = n := by
  refine ⟨rfl, rfl, rfl, ?_, ?_⟩
  · have ht : (JsNum.num n).truthy = true := by
      simp [JsNum.truthy, hn]
    simp only [getContentRoute, ht]
  · intro c
    simp [getContentByUser, List.mem_filter]

/-- C10 witness: in the one-record store, `userId=0` yields the full list
and `userId=5` yields the `createdById = 5` filter. -/
theorem getContent_userId_truthiness_witness :
    getContentRoute demoStore (some (JsNum.num 0)) = getAllContent demoStore ∧
    getContentRoute demoStore (some (JsNum.num 5)) = getContentByUser demoStore 5 := by
  have h := getContent_userId_truthiness demoStore 5 (by decide)
  exact ⟨h.1, h.2.2.2.1⟩

end TeacherHub
